import Mathlib

/-!
Verification of the inventory management system
(`cleaned_inventory_system.py`).

The program keeps one mutable table `stock_data : Dict[str, int]` and six
operations over it: `add_item`, `remove_item`, `get_quantity`, `load_data`,
`save_data`, `check_low_items`.  We embed the table as an association list
with Python-dict semantics (first matching key wins, in-place update keeps
position, insertion appends at the end), and embed dynamically typed Python
values reachable through JSON decoding as the inductive type `JVal`
(JSON numerals are modelled as integers).  Operations that can raise an
uncaught Python exception return `Except PyErr`.
-/

namespace Inventory

/-- A JSON-decodable Python value: `None`, `bool`, `int`, `str`, `list`,
`dict` with string keys.  This is both the type of values stored in the
ledger (after an unvalidated `load_data` the ledger can hold any of these)
and the type of dynamically typed arguments passed by callers. -/
inductive JVal where
  | jnull
  | jbool (b : Bool)
  | jint (n : Int)
  | jstr (s : String)
  | jarr (elems : List JVal)
  | jobj (fields : List (String × JVal))

/-- Python exceptions that the embedded code can raise. -/
inductive PyErr where
  | typeError
  | keyError
  | valueError
deriving DecidableEq

/-- The stock ledger: a Python dict from item name to value, embedded as an
association list in iteration (= insertion) order. -/
abbrev Ledger := List (String × JVal)

/-- Python `d.get(k)` / `d[k]`-lookup: first entry with the given key. -/
def dictGet (d : Ledger) (k : String) : Option JVal :=
  match d with
  | [] => none
  | (k', v) :: rest => if k' = k then some v else dictGet rest k

/-- Python `d[k] = v`: replace the value in place if the key is present
(keeping its position), otherwise append the new entry at the end. -/
def dictSet (d : Ledger) (k : String) (v : JVal) : Ledger :=
  match d with
  | [] => [(k, v)]
  | (k', v') :: rest =>
      if k' = k then (k', v) :: rest else (k', v') :: dictSet rest k v

/-- Python `del d[k]`: remove the entry with the given key. -/
def dictDel (d : Ledger) (k : String) : Ledger :=
  match d with
  | [] => []
  | (k', v') :: rest => if k' = k then rest else (k', v') :: dictDel rest k

/-- Python `isinstance(v, int)`.  `bool` is a subclass of `int` in Python,
so booleans count as integers. -/
def pyIsInt : JVal → Bool
  | .jint _ => true
  | .jbool _ => true
  | _ => false

/-- Numeric value of a Python integer (booleans coerce to 0/1); zero on
values that are not integers (only used behind a `pyIsInt` guard). -/
def pyToInt : JVal → Int
  | .jint n => n
  | .jbool b => if b then 1 else 0
  | _ => 0

/-- Python `v + q` for integer `q`: defined on integers and booleans,
raises `TypeError` otherwise. -/
def pyAdd (v : JVal) (q : Int) : Except PyErr JVal :=
  match v with
  | .jint n => .ok (.jint (n + q))
  | .jbool b => .ok (.jint ((if b then 1 else 0) + q))
  | _ => .error .typeError

/-- Python `v - q` for integer `q`: defined on integers and booleans,
raises `TypeError` otherwise. -/
def pySub (v : JVal) (q : Int) : Except PyErr JVal :=
  match v with
  | .jint n => .ok (.jint (n - q))
  | .jbool b => .ok (.jint ((if b then 1 else 0) - q))
  | _ => .error .typeError

/-- Python `v < t` for integer `t`: defined on integers and booleans,
raises `TypeError` otherwise. -/
def pyLtInt (v : JVal) (t : Int) : Except PyErr Bool :=
  match v with
  | .jint n => .ok (decide (n < t))
  | .jbool b => .ok (decide ((if b then (1 : Int) else 0) < t))
  | _ => .error .typeError

/-- `add_item(item, quantity)`.  Mirrors the source: reject (warn, return,
no mutation) if `item` is falsy or not a `str`, if `quantity` is not an
`int`, or if `quantity < 0`; otherwise
`stock_data[item] = stock_data.get(item, 0) + quantity`.
The addition raises `TypeError` if the stored value is not numeric. -/
def addItem (item quantity : JVal) (d : Ledger) : Except PyErr Ledger :=
  match item with
  | .jstr s =>
      if s = "" then .ok d
      else if pyIsInt quantity then
        if pyToInt quantity < 0 then .ok d
        else
          match pyAdd ((dictGet d s).getD (.jint 0)) (pyToInt quantity) with
          | .ok v => .ok (dictSet d s v)
          | .error e => .error e
      else .ok d
  | _ => .ok d

/-- The `try:` block of `remove_item`:
`stock_data[item] -= quantity`, then delete the entry if the stored value
is `<= 0`.  A missing key raises `KeyError`; a non-numeric stored value
raises `TypeError` from the subtraction. -/
def removeTryBody (item : String) (q : Int) (d : Ledger) :
    Except PyErr (Bool × Ledger) :=
  match dictGet d item with
  | none => .error .keyError
  | some v =>
      match pySub v q with
      | .error e => .error e
      | .ok v' =>
          let d1 := dictSet d item v'
          if pyToInt v' ≤ 0 then .ok (true, dictDel d1 item)
          else .ok (true, d1)

/-- `remove_item(item, quantity)`.  Mirrors the source: return `False` if
`item` is absent or `quantity` is not a positive `int`; otherwise run the
try-block, catching only `KeyError` and `ValueError` (returning `False`);
any other exception propagates. -/
def removeItem (item : String) (quantity : JVal) (d : Ledger) :
    Except PyErr (Bool × Ledger) :=
  match dictGet d item with
  | none => .ok (false, d)
  | some _ =>
      if pyIsInt quantity ∧ 0 < pyToInt quantity then
        match removeTryBody item (pyToInt quantity) d with
        | .ok r => .ok r
        | .error .keyError => .ok (false, d)
        | .error .valueError => .ok (false, d)
        | .error .typeError => .error .typeError
      else .ok (false, d)

/-- `get_quantity(item)`: the stored value if present, `None` otherwise.
Never raises. -/
def getQuantity (item : String) (d : Ledger) : Option JVal :=
  match dictGet d item with
  | none => none
  | some v => some v

/-- `load_data`.  The file system interaction is modelled by its outcome:
`doc = none` stands for an I/O failure or malformed JSON (the `except`
branch), `doc = some v` for a successfully decoded document `v`.  The
source only checks `isinstance(loaded_data, dict)`: any decoded object
wholly replaces the ledger, values unvalidated; anything else fails and
leaves the ledger untouched. -/
def loadData (doc : Option JVal) (d : Ledger) : Bool × Ledger :=
  match doc with
  | none => (false, d)
  | some (.jobj fields) => (true, fields)
  | some _ => (false, d)

/-- `save_data`: the JSON document written to the destination —
`json.dump(stock_data, file)` serializes the ledger as an object. -/
def saveData (d : Ledger) : JVal := .jobj d

/-- `check_low_items(threshold)`: the names of entries whose value compares
`< threshold`, in iteration order.  Comparing a non-numeric stored value
raises `TypeError`. -/
def checkLowItems (threshold : Int) (d : Ledger) :
    Except PyErr (List String) :=
  match d with
  | [] => .ok []
  | (k, v) :: rest =>
      match pyLtInt v threshold with
      | .error e => .error e
      | .ok b =>
          match checkLowItems threshold rest with
          | .error e => .error e
          | .ok names => .ok (if b then k :: names else names)

/-- One invocation of an inventory operation, with its dynamically typed
arguments (for `load`, the decoded document or `none` for an I/O/parse
failure). -/
inductive Op where
  | add (item quantity : JVal)
  | remove (item : String) (quantity : JVal)
  | load (doc : Option JVal)
  | save
  | getQ (item : String)
  | lowCheck (threshold : Int)

/-- The ledger after one operation; `none` when the operation raises an
uncaught exception (the process dies, no further state). -/
def applyOp (op : Op) (d : Ledger) : Option Ledger :=
  match op with
  | .add item q =>
      match addItem item q d with
      | .ok d' => some d'
      | .error _ => none
  | .remove item q =>
      match removeItem item q d with
      | .ok (_, d') => some d'
      | .error _ => none
  | .load doc => some (loadData doc d).2
  | .save => some d
  | .getQ _ => some d
  | .lowCheck t =>
      match checkLowItems t d with
      | .ok _ => some d
      | .error _ => none

/-- The ledger after a sequence of operations; `none` as soon as one
raises. -/
def runOps (ops : List Op) (d : Ledger) : Option Ledger :=
  match ops with
  | [] => some d
  | op :: rest =>
      match applyOp op d with
      | none => none
      | some d' => runOps rest d'

/-- A ledger value that is a non-negative integer. -/
def goodValB : JVal → Bool
  | .jint n => decide (0 ≤ n)
  | _ => false

/-- Every entry of the ledger holds a non-negative integer. -/
def goodLedgerB (d : Ledger) : Bool :=
  d.all fun kv => goodValB kv.2

/-- A load outcome whose document, when it is an object, holds only
non-negative integer values (failures and non-objects are unconstrained:
they never reach the ledger). -/
def goodDocB : Option JVal → Bool
  | some (.jobj fields) => goodLedgerB fields
  | _ => true

/-- An operation whose `load` document (if any) is value-validated. -/
def opGoodLoads : Op → Bool
  | .load doc => goodDocB doc
  | _ => true

/-- A value that is a non-empty Python string — the item names accepted by
`add_item`'s first guard. -/
def isNonemptyStr : JVal → Bool
  | .jstr s => decide (s ≠ "")
  | _ => false

/-- The operation sequence consisting of valid integer adds of one item. -/
def addOps (s : String) (qs : List Int) : List Op :=
  qs.map fun q => Op.add (.jstr s) (.jint q)

/-! ### Basic association-list (Python dict) lemmas -/

theorem dictGet_dictSet_self (d : Ledger) (k : String) (v : JVal) :
    dictGet (dictSet d k v) k = some v := by
  induction d with
  | nil => simp [dictSet, dictGet]
  | cons hd tl ih =>
      obtain ⟨k', v'⟩ := hd
      by_cases h : k' = k <;> simp [dictSet, dictGet, h, ih]

theorem dictDel_dictSet (d : Ledger) (k : String) (v : JVal) :
    dictDel (dictSet d k v) k = dictDel d k := by
  induction d with
  | nil => simp [dictSet, dictDel]
  | cons hd tl ih =>
      obtain ⟨k', v'⟩ := hd
      by_cases h : k' = k <;> simp [dictSet, dictDel, h, ih]

theorem dictGet_eq_none_of_not_mem (d : Ledger) (k : String)
    (h : k ∉ d.map Prod.fst) : dictGet d k = none := by
  induction d with
  | nil => rfl
  | cons hd tl ih =>
      obtain ⟨k', v'⟩ := hd
      simp only [List.map_cons, List.mem_cons] at h
      push_neg at h
      simp [dictGet, ih h.2, Ne.symm h.1]

theorem dictGet_dictDel_self (d : Ledger) (k : String)
    (h : (d.map Prod.fst).Nodup) : dictGet (dictDel d k) k = none := by
  induction d with
  | nil => rfl
  | cons hd tl ih =>
      obtain ⟨k', v'⟩ := hd
      simp only [List.map_cons, List.nodup_cons] at h
      by_cases hk : k' = k
      · subst hk
        simpa [dictDel] using dictGet_eq_none_of_not_mem tl k' h.1
      · simp [dictDel, dictGet, hk, ih h.2]

/-! ### Lemmas about non-negative-integer-valued ledgers -/

theorem goodValB_eq_true (v : JVal) (h : goodValB v = true) :
    ∃ n : Int, 0 ≤ n ∧ v = .jint n := by
  cases v <;> simp [goodValB] at h ⊢
  exact h

theorem dictGet_good (d : Ledger) (k : String) (v : JVal)
    (hd : goodLedgerB d = true) (hg : dictGet d k = some v) :
    goodValB v = true := by
  induction d with
  | nil => simp [dictGet] at hg
  | cons hd' tl ih =>
      obtain ⟨k', v'⟩ := hd'
      simp only [goodLedgerB, List.all_cons, Bool.and_eq_true] at hd
      by_cases h : k' = k
      · simp [dictGet, h] at hg
        exact hg ▸ hd.1
      · simp only [dictGet, if_neg h] at hg
        exact ih hd.2 hg

theorem goodLedgerB_dictSet (d : Ledger) (k : String) (v : JVal)
    (hd : goodLedgerB d = true) (hv : goodValB v = true) :
    goodLedgerB (dictSet d k v) = true := by
  induction d with
  | nil => simp [dictSet, goodLedgerB, hv]
  | cons hd' tl ih =>
      obtain ⟨k', v'⟩ := hd'
      simp only [goodLedgerB, List.all_cons, Bool.and_eq_true] at hd
      by_cases h : k' = k <;>
        · simp only [dictSet, if_pos, if_neg, h, ite_true, ite_false,
            goodLedgerB, List.all_cons, Bool.and_eq_true]
          first
          | exact ⟨hd.1, hd.2⟩
          | exact ⟨hv, hd.2⟩
          | exact ⟨hd.1, ih hd.2⟩

theorem goodLedgerB_dictDel (d : Ledger) (k : String)
    (hd : goodLedgerB d = true) : goodLedgerB (dictDel d k) = true := by
  induction d with
  | nil => simpa [dictDel] using hd
  | cons hd' tl ih =>
      obtain ⟨k', v'⟩ := hd'
      simp only [goodLedgerB, List.all_cons, Bool.and_eq_true] at hd
      by_cases h : k' = k
      · simpa [dictDel, h, goodLedgerB] using hd.2
      · simp only [dictDel, if_neg h, goodLedgerB, List.all_cons,
          Bool.and_eq_true]
        exact ⟨hd.1, ih hd.2⟩

/-! ### Characterizations of the operations on well-typed inputs -/

theorem pySub_error_eq (v : JVal) (q : Int) (e : PyErr)
    (h : pySub v q = .error e) : e = .typeError := by
  cases v <;> simp [pySub] at h <;> exact h.symm

theorem addItem_good_eq (s : String) (quantity : JVal) (d : Ledger) (n : Int)
    (hs : ¬ s = "") (hint : pyIsInt quantity = true)
    (hq : ¬ pyToInt quantity < 0)
    (hg : (dictGet d s).getD (.jint 0) = .jint n) :
    addItem (.jstr s) quantity d =
      .ok (dictSet d s (.jint (n + pyToInt quantity))) := by
  simp only [addItem, if_neg hs, hint, if_true, if_neg hq, hg, pyAdd]

theorem addItem_present_eq (s : String) (q : Int) (d : Ledger) (n : Int)
    (hs : ¬ s = "") (hq : 0 ≤ q) (hget : dictGet d s = some (.jint n)) :
    addItem (.jstr s) (.jint q) d = .ok (dictSet d s (.jint (n + q))) := by
  have := addItem_good_eq s (.jint q) d n hs rfl
    (by simpa [pyToInt] using not_lt.mpr hq) (by simp [hget])
  simpa [pyToInt] using this

theorem addItem_absent_eq (s : String) (q : Int) (d : Ledger)
    (hs : ¬ s = "") (hq : 0 ≤ q) (hget : dictGet d s = none) :
    addItem (.jstr s) (.jint q) d = .ok (dictSet d s (.jint q)) := by
  have := addItem_good_eq s (.jint q) d 0 hs rfl
    (by simpa [pyToInt] using not_lt.mpr hq) (by simp [hget])
  simpa [pyToInt] using this

theorem addItem_ok_good (item quantity : JVal) (d d' : Ledger)
    (hd : goodLedgerB d = true) (h : addItem item quantity d = .ok d') :
    goodLedgerB d' = true := by
  cases item with
  | jstr s =>
      by_cases hs : s = ""
      · simp [addItem, hs] at h; exact h ▸ hd
      · by_cases hint : pyIsInt quantity = true
        · by_cases hneg : pyToInt quantity < 0
          · simp [addItem, hs, hint, hneg] at h; exact h ▸ hd
          · cases hget : dictGet d s with
            | none =>
                rw [addItem_good_eq s quantity d 0 hs hint hneg
                  (by simp [hget])] at h
                obtain rfl : _ = d' := by simpa using h
                exact goodLedgerB_dictSet d s _ hd
                  (by simp [goodValB]; omega)
            | some w =>
                obtain ⟨n, hn, rfl⟩ :=
                  goodValB_eq_true w (dictGet_good d s w hd hget)
                rw [addItem_good_eq s quantity d n hs hint hneg
                  (by simp [hget])] at h
                obtain rfl : _ = d' := by simpa using h
                exact goodLedgerB_dictSet d s _ hd
                  (by simp [goodValB]; omega)
        · simp [addItem, hs, hint] at h; exact h ▸ hd
  | jnull => simp [addItem] at h; exact h ▸ hd
  | jbool b => simp [addItem] at h; exact h ▸ hd
  | jint n => simp [addItem] at h; exact h ▸ hd
  | jarr xs => simp [addItem] at h; exact h ▸ hd
  | jobj fs => simp [addItem] at h; exact h ▸ hd

theorem removeTryBody_int_eq (s : String) (q n : Int) (d : Ledger)
    (hget : dictGet d s = some (.jint n)) :
    removeTryBody s q d =
      if n - q ≤ 0 then .ok (true, dictDel d s)
      else .ok (true, dictSet d s (.jint (n - q))) := by
  simp only [removeTryBody, hget, pySub, pyToInt, dictDel_dictSet]

theorem removeItem_present_eq (s : String) (quantity : JVal) (n : Int)
    (d : Ledger) (hget : dictGet d s = some (.jint n))
    (hint : pyIsInt quantity = true) (hpos : 0 < pyToInt quantity) :
    removeItem s quantity d =
      if n - pyToInt quantity ≤ 0 then .ok (true, dictDel d s)
      else .ok (true, dictSet d s (.jint (n - pyToInt quantity))) := by
  have hbody := removeTryBody_int_eq s (pyToInt quantity) n d hget
  by_cases hle : n - pyToInt quantity ≤ 0
  · rw [if_pos hle] at hbody ⊢
    simp only [removeItem, hget]
    rw [if_pos ⟨hint, hpos⟩, hbody]
  · rw [if_neg hle] at hbody ⊢
    simp only [removeItem, hget]
    rw [if_pos ⟨hint, hpos⟩, hbody]

theorem removeItem_absent_eq (s : String) (quantity : JVal) (d : Ledger)
    (hget : dictGet d s = none) :
    removeItem s quantity d = .ok (false, d) := by
  simp [removeItem, hget]

theorem removeItem_badqty_eq (s : String) (quantity : JVal) (v : JVal)
    (d : Ledger) (hget : dictGet d s = some v)
    (hbad : ¬ (pyIsInt quantity = true ∧ 0 < pyToInt quantity)) :
    removeItem s quantity d = .ok (false, d) := by
  simp only [removeItem, hget]
  rw [if_neg (by simpa using hbad)]

theorem removeItem_ok_good (s : String) (quantity : JVal) (b : Bool)
    (d d' : Ledger) (hd : goodLedgerB d = true)
    (h : removeItem s quantity d = .ok (b, d')) :
    goodLedgerB d' = true := by
  cases hget : dictGet d s with
  | none =>
      rw [removeItem_absent_eq s quantity d hget] at h
      obtain ⟨rfl, rfl⟩ : b = false ∧ d' = d := by simpa using h.symm
      exact hd
  | some v =>
      by_cases hq : pyIsInt quantity = true ∧ 0 < pyToInt quantity
      · obtain ⟨n, hn, rfl⟩ := goodValB_eq_true v (dictGet_good d s v hd hget)
        rw [removeItem_present_eq s quantity n d hget hq.1 hq.2] at h
        by_cases hle : n - pyToInt quantity ≤ 0
        · rw [if_pos hle] at h
          obtain ⟨rfl, rfl⟩ : true = b ∧ dictDel d s = d' := by simpa using h
          exact goodLedgerB_dictDel d s hd
        · rw [if_neg hle] at h
          obtain ⟨rfl, rfl⟩ :
              true = b ∧ dictSet d s (.jint (n - pyToInt quantity)) = d' := by
            simpa using h
          exact goodLedgerB_dictSet d s _ hd (by simp [goodValB]; omega)
      · rw [removeItem_badqty_eq s quantity v d hget hq] at h
        obtain ⟨rfl, rfl⟩ : false = b ∧ d = d' := by simpa using h
        exact hd

theorem removeTryBody_error_eq (s : String) (q : Int) (d : Ledger) (v : JVal)
    (hget : dictGet d s = some v) (e : PyErr)
    (h : removeTryBody s q d = .error e) : e = .typeError := by
  simp only [removeTryBody, hget] at h
  cases hsub : pySub v q with
  | error e' =>
      rw [hsub] at h
      obtain rfl : e' = e := by simpa using h
      exact pySub_error_eq v q _ hsub
  | ok v' =>
      rw [hsub] at h
      by_cases hle : pyToInt v' ≤ 0 <;> simp [hle] at h

theorem removeTryBody_ok_fst (s : String) (q : Int) (d : Ledger)
    (r : Bool × Ledger) (h : removeTryBody s q d = .ok r) : r.1 = true := by
  cases hget : dictGet d s with
  | none => simp [removeTryBody, hget] at h
  | some v =>
      simp only [removeTryBody, hget] at h
      cases hsub : pySub v q with
      | error e' => rw [hsub] at h; simp at h
      | ok v' =>
          rw [hsub] at h
          by_cases hle : pyToInt v' ≤ 0
          · obtain rfl : (true, dictDel (dictSet d s v') s) = r := by
              simpa [hle] using h
            rfl
          · obtain rfl : (true, dictSet d s v') = r := by
              simpa [hle] using h
            rfl

theorem removeItem_valid_not_false (s : String) (quantity : JVal) (v : JVal)
    (d : Ledger) (hget : dictGet d s = some v)
    (hq : pyIsInt quantity = true ∧ 0 < pyToInt quantity)
    (b : Bool) (d' : Ledger)
    (h : removeItem s quantity d = .ok (b, d')) : b = true := by
  simp only [removeItem, hget] at h
  rw [if_pos hq] at h
  cases hbody : removeTryBody s (pyToInt quantity) d with
  | ok r =>
      rw [hbody] at h
      obtain rfl : r = (b, d') := by simpa using h
      exact removeTryBody_ok_fst s (pyToInt quantity) d (b, d') hbody
  | error e =>
      have he := removeTryBody_error_eq s (pyToInt quantity) d v hget e hbody
      subst he
      rw [hbody] at h
      simp at h

theorem checkLowItems_int_eq (t : Int) (d : Ledger)
    (h : ∀ kv ∈ d, ∃ n : Int, kv.2 = JVal.jint n) :
    checkLowItems t d =
      .ok ((d.filter fun kv => decide (pyToInt kv.2 < t)).map Prod.fst) := by
  induction d with
  | nil => rfl
  | cons hd tl ih =>
      obtain ⟨k, v⟩ := hd
      obtain ⟨n, hn⟩ := h (k, v) (List.mem_cons_self _ _)
      simp only at hn
      subst hn
      have ih' := ih fun kv hkv => h kv (List.mem_cons_of_mem _ hkv)
      simp only [checkLowItems, pyLtInt, ih']
      by_cases hlt : n < t <;> simp [pyToInt, hlt, List.filter]

theorem applyOp_good (op : Op) (d d' : Ledger)
    (hd : goodLedgerB d = true) (hop : opGoodLoads op = true)
    (h : applyOp op d = some d') : goodLedgerB d' = true := by
  cases op with
  | add item q =>
      simp only [applyOp] at h
      cases hadd : addItem item q d with
      | ok d2 =>
          rw [hadd] at h
          obtain rfl : d2 = d' := by simpa using h
          exact addItem_ok_good item q d d2 hd hadd
      | error e => rw [hadd] at h; simp at h
  | remove item q =>
      simp only [applyOp] at h
      cases hrem : removeItem item q d with
      | ok r =>
          obtain ⟨b, d2⟩ := r
          rw [hrem] at h
          obtain rfl : d2 = d' := by simpa using h
          exact removeItem_ok_good item q b d d2 hd hrem
      | error e => rw [hrem] at h; simp at h
  | load doc =>
      simp only [applyOp] at h
      obtain rfl : (loadData doc d).2 = d' := by simpa using h
      cases doc with
      | none => exact hd
      | some v =>
          cases v with
          | jobj fields => simpa [loadData, opGoodLoads, goodDocB] using hop
          | jnull => exact hd
          | jbool b => exact hd
          | jint n => exact hd
          | jstr s => exact hd
          | jarr xs => exact hd
  | save =>
      obtain rfl : d = d' := by simpa [applyOp] using h
      exact hd
  | getQ item =>
      obtain rfl : d = d' := by simpa [applyOp] using h
      exact hd
  | lowCheck t =>
      simp only [applyOp] at h
      cases hc : checkLowItems t d with
      | ok names =>
          rw [hc] at h
          obtain rfl : d = d' := by simpa using h
          exact hd
      | error e => rw [hc] at h; simp at h

theorem runOps_good (ops : List Op) (d d' : Ledger)
    (hd : goodLedgerB d = true)
    (hops : ∀ op ∈ ops, opGoodLoads op = true)
    (h : runOps ops d = some d') : goodLedgerB d' = true := by
  induction ops generalizing d with
  | nil =>
      obtain rfl : d = d' := by simpa [runOps] using h
      exact hd
  | cons op rest ih =>
      simp only [runOps] at h
      cases hap : applyOp op d with
      | none => rw [hap] at h; simp at h
      | some d2 =>
          rw [hap] at h
          exact ih d2
            (applyOp_good op d d2 hd (hops op (List.mem_cons_self _ _)) hap)
            (fun o ho => hops o (List.mem_cons_of_mem _ ho)) h

theorem runOps_adds_present (s : String) (qs : List Int) (d : Ledger)
    (n : Int) (hs : ¬ s = "") (hqs : ∀ q ∈ qs, 0 ≤ q)
    (hget : dictGet d s = some (.jint n)) :
    ∃ d', runOps (addOps s qs) d = some d' ∧
      dictGet d' s = some (.jint (n + qs.sum)) := by
  induction qs generalizing d n with
  | nil => exact ⟨d, rfl, by simpa using hget⟩
  | cons q rest ih =>
      have hq : 0 ≤ q := hqs q (List.mem_cons_self _ _)
      have hadd := addItem_present_eq s q d n hs hq hget
      obtain ⟨d', hrun, hg⟩ := ih (dictSet d s (.jint (n + q))) (n + q)
        (fun x hx => hqs x (List.mem_cons_of_mem _ hx))
        (dictGet_dictSet_self d s _)
      refine ⟨d', ?_, ?_⟩
      · simp only [addOps, List.map_cons, runOps, applyOp, hadd]
        exact hrun
      · rw [hg, List.sum_cons]
        congr 2
        ring

/-! ### Claim C1 — ledger invariant -/

/-- C1 counterexample: the claimed invariant "no entry has quantity ≤ 0"
fails — a zero-quantity add of an absent item creates a zero-valued entry:
after the one-operation sequence add_item("a", 0) from the empty ledger,
the entry ("a", 0) is in the ledger with quantity 0 ≤ 0, and the ledger is
not numerically unchanged (it gained an entry). -/
theorem C1_counterexample :
    runOps [Op.add (.jstr "a") (.jint 0)] [] = some [("a", JVal.jint 0)] ∧
    ("a", JVal.jint 0) ∈ [("a", JVal.jint 0)] ∧ (0 : Int) ≤ 0 ∧
    ([] : Ledger) ≠ [("a", JVal.jint 0)] :=
  ⟨rfl, List.mem_singleton_self _, le_refl 0, by simp⟩

/-- C1 (amended): starting from the empty ledger, after any sequence of
operations that completes without an uncaught exception and in which every
load whose document is an object carries only non-negative integer values,
every ledger entry holds a non-negative integer — zero-valued entries can
occur (a zero-quantity add of an absent item creates one), but no entry is
ever negative and no entry ever holds a non-integer value. -/
theorem C1_invariant_amended (ops : List Op) (d : Ledger)
    (hloads : ∀ op ∈ ops, opGoodLoads op = true)
    (hrun : runOps ops [] = some d) :
    ∀ kv ∈ d, ∃ n : Int, 0 ≤ n ∧ kv.2 = .jint n := by
  have hgood : goodLedgerB d = true := runOps_good ops [] d rfl hloads hrun
  intro kv hkv
  exact goodValB_eq_true kv.2 (List.all_eq_true.mp hgood kv hkv)

/-- C1 witness: the amended invariant applied to the concrete sequence
add("a", 3); remove("a", 1); load(a failing source), instantiated at the
single resulting entry ("a", 2). -/
theorem C1_invariant_amended_witness :
    ∃ n : Int, 0 ≤ n ∧ JVal.jint 2 = JVal.jint n :=
  C1_invariant_amended
    [Op.add (.jstr "a") (.jint 3), Op.remove "a" (.jint 1), Op.load none]
    [("a", JVal.jint 2)]
    (by intro op hop
        simp only [List.mem_cons, List.not_mem_nil, or_false] at hop
        rcases hop with rfl | rfl | rfl
        · rfl
        · rfl
        · rfl)
    rfl
    ("a", JVal.jint 2) (List.mem_singleton_self _)

/-! ### Claim C2 — load validation -/

/-- C2 counterexample: load_data does not validate values — a decoded
object holding the negative value −5 wholly replaces the ledger and the
load reports success, where the claim says such a load must fail and leave
the ledger alone. -/
theorem C2_counterexample :
    loadData (some (.jobj [("a", .jint (-5))])) [("x", .jint 1)] =
      (true, [("a", JVal.jint (-5))]) ∧ (-5 : Int) < 0 :=
  ⟨rfl, by decide⟩

/-- C2 (amended): load_data replaces the ledger exactly when the decoded
document is an object; the values are not validated, so any object —
including one with negative or non-integer values — replaces the ledger
with success, and any non-object document (or I/O or parse failure,
modelled as a missing document) yields false with the ledger untouched. -/
theorem C2_load_replaces_iff_object (doc : Option JVal) (d : Ledger) :
    (∀ fields, doc = some (.jobj fields) → loadData doc d = (true, fields)) ∧
    ((∀ fields, doc ≠ some (.jobj fields)) → loadData doc d = (false, d)) := by
  constructor
  · intro _fields h
    subst h
    rfl
  · intro h
    match doc with
    | none => rfl
    | some .jnull => rfl
    | some (.jbool b) => rfl
    | some (.jint n) => rfl
    | some (.jstr s) => rfl
    | some (.jarr xs) => rfl
    | some (.jobj fs) => exact absurd rfl (h fs)

/-- C2 witness: an unvalidated object replaces the ledger; an array does
not. -/
theorem C2_load_replaces_iff_object_witness :
    loadData (some (.jobj [("a", JVal.jint (-5))])) [] =
      (true, [("a", JVal.jint (-5))]) ∧
    loadData (some (.jarr [])) [("x", JVal.jint 1)] =
      (false, [("x", JVal.jint 1)]) :=
  ⟨(C2_load_replaces_iff_object (some (.jobj [("a", JVal.jint (-5))])) []).1
      _ rfl,
   (C2_load_replaces_iff_object (some (.jarr [])) [("x", JVal.jint 1)]).2
      (fun _fields h => JVal.noConfusion (Option.some.inj h))⟩

/-! ### Claim C3 — save/load round trip -/

/-- C3: round trip — for a ledger of non-negative integer entries, loading
the document written by save_data succeeds and reproduces the saved ledger
exactly, from any intermediate ledger state (no mutation between the two
calls is modelled by passing the written document unchanged). -/
theorem C3_save_load_roundtrip (d d0 : Ledger)
    (_hd : ∀ kv ∈ d, ∃ n : Int, 0 ≤ n ∧ kv.2 = JVal.jint n) :
    loadData (some (saveData d)) d0 = (true, d) := rfl

/-- C3 witness: the round trip on the concrete ledger with apple 7 and
banana 5. -/
theorem C3_save_load_roundtrip_witness :
    loadData
      (some (saveData [("apple", JVal.jint 7), ("banana", JVal.jint 5)]))
      [] = (true, [("apple", JVal.jint 7), ("banana", JVal.jint 5)]) :=
  C3_save_load_roundtrip [("apple", JVal.jint 7), ("banana", JVal.jint 5)] []
    (by intro kv hkv
        simp only [List.mem_cons, List.not_mem_nil, or_false] at hkv
        rcases hkv with rfl | rfl
        · exact ⟨7, by decide, rfl⟩
        · exact ⟨5, by decide, rfl⟩)

/-! ### Claim C4 — cumulative adds and lookup of a missing item -/

/-- C4: starting from any ledger that does not contain the item, a
nonempty sequence of valid adds (non-empty name, integer quantities ≥ 0)
completes without exception and leaves get_quantity equal to the sum of
the added quantities; and get_quantity on the item while it is absent
returns none (a "not found" signal, never an exception). -/
theorem C4_cumulative_adds (s : String) (qs : List Int) (d : Ledger)
    (hs : ¬ s = "") (hqs : ∀ q ∈ qs, 0 ≤ q) (hne : qs ≠ [])
    (habs : dictGet d s = none) :
    (∃ d', runOps (addOps s qs) d = some d' ∧
      getQuantity s d' = some (.jint qs.sum)) ∧
    getQuantity s d = none := by
  refine ⟨?_, by simp [getQuantity, habs]⟩
  match qs, hne with
  | q :: rest, _ =>
      have hq : 0 ≤ q := hqs q (List.mem_cons_self _ _)
      have hadd := addItem_absent_eq s q d hs hq habs
      obtain ⟨d', hrun, hg⟩ := runOps_adds_present s rest
        (dictSet d s (.jint q)) q hs
        (fun x hx => hqs x (List.mem_cons_of_mem _ hx))
        (dictGet_dictSet_self d s _)
      refine ⟨d', ?_, ?_⟩
      · simp only [addOps, List.map_cons, runOps, applyOp, hadd]
        exact hrun
      · simp only [getQuantity, hg, List.sum_cons]

/-- C4 witness: add("apple", 10) then add("apple", 5) from the empty
ledger gives quantity 10 + 5; get_quantity on the empty ledger is none. -/
theorem C4_cumulative_adds_witness :
    (∃ d', runOps (addOps "apple" [10, 5]) [] = some d' ∧
      getQuantity "apple" d' = some (.jint ([10, 5] : List Int).sum)) ∧
    getQuantity "apple" [] = none :=
  C4_cumulative_adds "apple" [10, 5] [] (by decide) (by decide) (by decide)
    rfl

/-! ### Claim C5 — successful removal -/

/-- C5: for an item present with integer value n (ledger keys
duplicate-free, as Python dicts guarantee) and any positive integer
quantity q, remove_item returns true and decrements the value by q,
deleting the entry entirely when n − q ≤ 0; after such a delete,
get_quantity reports the item as missing. -/
theorem C5_remove_decrements (s : String) (q n : Int) (d : Ledger)
    (hnod : (d.map Prod.fst).Nodup)
    (hget : dictGet d s = some (.jint n)) (hq : 0 < q) :
    removeItem s (.jint q) d =
      (if n - q ≤ 0 then .ok (true, dictDel d s)
       else .ok (true, dictSet d s (.jint (n - q)))) ∧
    (n - q ≤ 0 → getQuantity s (dictDel d s) = none) := by
  constructor
  · have h := removeItem_present_eq s (.jint q) n d hget rfl
      (by simpa [pyToInt] using hq)
    simpa [pyToInt] using h
  · intro hle
    simp [getQuantity, dictGet_dictDel_self d s hnod]

/-- C5 witness: the spec scenario — adds bring apple to 15, removing 20
deletes the entry, and get_quantity then reports "not found". -/
theorem C5_remove_decrements_witness :
    runOps (addOps "apple" [10, 5]) [] = some [("apple", JVal.jint 15)] ∧
    removeItem "apple" (.jint 20) [("apple", JVal.jint 15)] =
      .ok (true, []) ∧
    getQuantity "apple" (dictDel [("apple", JVal.jint 15)] "apple") =
      none := by
  have h := C5_remove_decrements "apple" 20 15 [("apple", JVal.jint 15)]
    (by simp) rfl (by decide)
  refine ⟨rfl, ?_, h.2 (by decide)⟩
  have h1 := h.1
  norm_num at h1
  exact h1

/-! ### Claim C6 — add rejects invalid input without mutation -/

/-- C6: add_item called with an item that is not a non-empty string, or a
quantity that is not an integer, or a negative quantity, returns normally
(no exception) with the ledger exactly unchanged. -/
theorem C6_add_rejects_invalid (item quantity : JVal) (d : Ledger)
    (h : isNonemptyStr item = false ∨ pyIsInt quantity = false ∨
      pyToInt quantity < 0) :
    addItem item quantity d = .ok d := by
  cases item with
  | jstr s =>
      by_cases hs : s = ""
      · simp [addItem, hs]
      · rcases h with h | h | h
        · simp [isNonemptyStr, hs] at h
        · simp [addItem, hs, h]
        · by_cases hint : pyIsInt quantity = true
          · simp [addItem, hs, hint, h]
          · simp [addItem, hs, hint]
  | jnull => simp [addItem]
  | jbool b => simp [addItem]
  | jint n => simp [addItem]
  | jarr xs => simp [addItem]
  | jobj fs => simp [addItem]

/-- C6 witness: the invalid calls from the program's own demo (non-string
name, empty name, negative quantity) plus a non-integer quantity, all
no-ops on a nonempty ledger. -/
theorem C6_add_rejects_invalid_witness :
    addItem (.jint 123) (.jint 10) [("x", JVal.jint 1)] =
      .ok [("x", JVal.jint 1)] ∧
    addItem (.jstr "") (.jint 10) [("x", JVal.jint 1)] =
      .ok [("x", JVal.jint 1)] ∧
    addItem (.jstr "orange") (.jint (-2)) [("x", JVal.jint 1)] =
      .ok [("x", JVal.jint 1)] ∧
    addItem (.jstr "orange") .jnull [("x", JVal.jint 1)] =
      .ok [("x", JVal.jint 1)] :=
  ⟨C6_add_rejects_invalid _ _ _ (Or.inl rfl),
   C6_add_rejects_invalid _ _ _ (Or.inl (by decide)),
   C6_add_rejects_invalid _ _ _ (Or.inr (Or.inr (by decide))),
   C6_add_rejects_invalid _ _ _ (Or.inr (Or.inl rfl))⟩

/-! ### Claim C7 — remove failure conditions -/

/-- C7: remove_item returns false with the ledger unchanged exactly when
the item is absent or the quantity is not a positive integer, and every
false result leaves the ledger exactly as it was. -/
theorem C7_remove_false_iff (s : String) (quantity : JVal) (d : Ledger) :
    (removeItem s quantity d = .ok (false, d) ↔
      dictGet d s = none ∨
        ¬ (pyIsInt quantity = true ∧ 0 < pyToInt quantity)) ∧
    ∀ b d', removeItem s quantity d = .ok (b, d') → b = false → d' = d := by
  constructor
  · constructor
    · intro h
      by_contra hcon
      push_neg at hcon
      obtain ⟨hne, hq⟩ := hcon
      obtain ⟨v, hv⟩ := Option.ne_none_iff_exists'.mp hne
      have hb := removeItem_valid_not_false s quantity v d hv hq false d h
      simp at hb
    · intro h
      rcases h with h | h
      · exact removeItem_absent_eq s quantity d h
      · cases hget : dictGet d s with
        | none => exact removeItem_absent_eq s quantity d hget
        | some v => exact removeItem_badqty_eq s quantity v d hget h
  · intro b d' h hb
    subst hb
    cases hget : dictGet d s with
    | none =>
        rw [removeItem_absent_eq s quantity d hget] at h
        obtain rfl : d = d' := by simpa using h
        rfl
    | some v =>
        by_cases hq : pyIsInt quantity = true ∧ 0 < pyToInt quantity
        · have hb := removeItem_valid_not_false s quantity v d hget hq
            false d' h
          simp at hb
        · rw [removeItem_badqty_eq s quantity v d hget hq] at h
          obtain rfl : d = d' := by simpa using h
          rfl

/-- C7 witness: removing an absent item and removing with a non-positive
quantity both return false and leave the ledger as it was. -/
theorem C7_remove_false_iff_witness :
    removeItem "orange" (.jint 1) [("x", JVal.jint 1)] =
      .ok (false, [("x", JVal.jint 1)]) ∧
    removeItem "x" (.jint 0) [("x", JVal.jint 1)] =
      .ok (false, [("x", JVal.jint 1)]) :=
  ⟨(C7_remove_false_iff "orange" (.jint 1) [("x", JVal.jint 1)]).1.mpr
      (Or.inl rfl),
   (C7_remove_false_iff "x" (.jint 0) [("x", JVal.jint 1)]).1.mpr
      (Or.inr (by decide))⟩

/-! ### Claim C8 — load failure atomicity -/

/-- C8: whenever load_data fails — the source is missing, unreadable or
malformed (no decoded document), or the decoded root is not an object —
it returns false and the in-memory ledger is exactly its prior state. -/
theorem C8_load_atomic_on_error (doc : Option JVal) (d : Ledger)
    (h : doc = none ∨ ∀ fields, doc ≠ some (.jobj fields)) :
    loadData doc d = (false, d) := by
  rcases h with rfl | h
  · rfl
  · match doc with
    | none => rfl
    | some .jnull => rfl
    | some (.jbool b) => rfl
    | some (.jint n) => rfl
    | some (.jstr s) => rfl
    | some (.jarr xs) => rfl
    | some (.jobj fs) => exact absurd rfl (h fs)

/-- C8 witness: a JSON array document and a missing/unparsable source both
fail and leave the prior ledger untouched. -/
theorem C8_load_atomic_on_error_witness :
    loadData (some (.jarr [JVal.jint 1])) [("x", JVal.jint 2)] =
      (false, [("x", JVal.jint 2)]) ∧
    loadData none [("x", JVal.jint 2)] = (false, [("x", JVal.jint 2)]) :=
  ⟨C8_load_atomic_on_error _ _
      (Or.inr fun _fields h => JVal.noConfusion (Option.some.inj h)),
   C8_load_atomic_on_error _ _ (Or.inl rfl)⟩

/-! ### Claim C9 — low-stock scan -/

/-- C9: on an integer-valued ledger, check_low_items returns exactly the
names of the entries whose quantity is strictly below the threshold, in
the ledger's iteration order. -/
theorem C9_low_items_filter (t : Int) (d : Ledger)
    (h : ∀ kv ∈ d, ∃ n : Int, kv.2 = JVal.jint n) :
    checkLowItems t d =
      .ok ((d.filter fun kv => decide (pyToInt kv.2 < t)).map Prod.fst) :=
  checkLowItems_int_eq t d h

/-- C9 witness: the spec example — threshold 5 on apple 7, banana 5,
pear 2 returns exactly pear (5 is not < 5). -/
theorem C9_low_items_filter_witness :
    checkLowItems 5 [("apple", JVal.jint 7), ("banana", JVal.jint 5),
      ("pear", JVal.jint 2)] = .ok ["pear"] := by
  have h := C9_low_items_filter 5
    [("apple", JVal.jint 7), ("banana", JVal.jint 5), ("pear", JVal.jint 2)]
    (by intro kv hkv
        simp only [List.mem_cons, List.not_mem_nil, or_false] at hkv
        rcases hkv with rfl | rfl | rfl
        · exact ⟨7, rfl⟩
        · exact ⟨5, rfl⟩
        · exact ⟨2, rfl⟩)
  exact h.trans rfl

/-! ### Claim C10 — the remove_item exception handler is dead code -/

/-- C10: once remove_item's guards hold (item present, quantity a
positive integer), the try-block can only fail with TypeError — never
KeyError or ValueError, the two exceptions the handler catches — so the
handler's false-returning branch is unreachable: remove_item never
returns false past the guards. -/
theorem C10_handler_dead (s : String) (quantity : JVal) (v : JVal)
    (d : Ledger) (hget : dictGet d s = some v)
    (hq : pyIsInt quantity = true ∧ 0 < pyToInt quantity) :
    (∀ e, removeTryBody s (pyToInt quantity) d = .error e →
      e = .typeError) ∧
    ∀ d', removeItem s quantity d ≠ .ok (false, d') := by
  refine ⟨fun e he => removeTryBody_error_eq s _ d v hget e he, ?_⟩
  intro d' hcon
  have hb := removeItem_valid_not_false s quantity v d hget hq false d' hcon
  simp at hb

/-- C10 witness: the dead-handler property at a concrete present item and
positive quantity. -/
theorem C10_handler_dead_witness :
    (∀ e, removeTryBody "x" (pyToInt (.jint 1)) [("x", JVal.jint 3)] =
        .error e → e = .typeError) ∧
    ∀ d', removeItem "x" (.jint 1) [("x", JVal.jint 3)] ≠
      .ok (false, d') :=
  C10_handler_dead "x" (.jint 1) (JVal.jint 3) [("x", JVal.jint 3)] rfl
    (by decide)

end Inventory
